import Mathlib

/-!
Shallow embedding of the BeeAlarmed bee-hive monitoring program
(BeeTracking.py, BeeDetection.py, Statistics.py, LoRaWANThread.py,
ImageConsumer.py, ImageProvider.py) together with proofs about it.

Conventions used throughout:
* Python ints become `Int` or `Nat`; real-valued (float) quantities become
  elements of an arbitrary `LinearOrderedCommRing` so that theorems cover any
  exact-arithmetic reading of the floating point source, and concrete
  evaluations instantiate the coordinate type with `Int`.
* The source compares Euclidean distances `sqrt(dx^2+dy^2)` against
  thresholds and sorts by them; the embedding stores squared distances and
  compares against squared thresholds, which is an exact reformulation
  because `sqrt` is strictly monotone on nonnegative reals.
* Stateful Python objects become explicit state records threaded through the
  functions; fallible code returns `Option`/`Except`-like types.
-/

/-- The four classification tags.  Modelled from the spec: `Config.py` (not
under `src/`) defines the four distinct tag constants `TAG_WESPE`,
`TAG_VARROA`, `TAG_POLLEN`, `TAG_COOLING`; only their identity and
distinctness are used by the code under `src/`. -/
inductive Tag
  | wespe
  | varroa
  | pollen
  | cooling
deriving DecidableEq

/-- State of the `Statistics` object (`Statistics.__init__`, Statistics.py
lines 17-33).  Counter attribute names follow the source, including the
misspelled `_processedFamesOverlall` set by the constructor. -/
structure Statistics where
  beesIn : Int
  beesOut : Int
  beesInOverall : Int
  beesOutOverall : Int
  wespenCount : Int
  wespenCountOverall : Int
  varroaCount : Int
  varroaCountOverall : Int
  pollenCount : Int
  pollenCountOverall : Int
  coolingCount : Int
  coolingCountOverall : Int
  processedFames : Int
  processedFamesOverlall : Int
deriving DecidableEq

/-- The freshly constructed `Statistics` object: every counter is zero. -/
def Statistics.init : Statistics :=
  ⟨0, 0, 0, 0, 0, 0, 0, 0, 0, 0, 0, 0, 0, 0⟩

/-- `Statistics.addBeeIn` (Statistics.py lines 41-45). -/
def Statistics.addBeeIn (s : Statistics) : Statistics :=
  { s with beesIn := s.beesIn + 1, beesInOverall := s.beesInOverall + 1 }

/-- `Statistics.addBeeOut` (Statistics.py lines 47-51). -/
def Statistics.addBeeOut (s : Statistics) : Statistics :=
  { s with beesOut := s.beesOut + 1, beesOutOverall := s.beesOutOverall + 1 }

/-- `Statistics.frameProcessed` (Statistics.py lines 35-39). -/
def Statistics.frameProcessed (s : Statistics) : Statistics :=
  { s with processedFames := s.processedFames + 1,
           processedFamesOverlall := s.processedFamesOverlall + 1 }

/-- `Statistics.addDetection` (Statistics.py lines 64-79): four independent
`if` statements, one per tag. -/
def Statistics.addDetection (s : Statistics) (tag : Tag) : Statistics :=
  let s := if Tag.wespe = tag then
    { s with wespenCount := s.wespenCount + 1,
             wespenCountOverall := s.wespenCountOverall + 1 } else s
  let s := if Tag.varroa = tag then
    { s with varroaCount := s.varroaCount + 1,
             varroaCountOverall := s.varroaCountOverall + 1 } else s
  let s := if Tag.pollen = tag then
    { s with pollenCount := s.pollenCount + 1,
             pollenCountOverall := s.pollenCountOverall + 1 } else s
  let s := if Tag.cooling = tag then
    { s with coolingCount := s.coolingCount + 1,
             coolingCountOverall := s.coolingCountOverall + 1 } else s
  s

/-- `Statistics.addClassificationResult` (Statistics.py lines 81-93): the
`trackId` parameter is unused by the source; each of the four tags present in
the result set triggers one `addDetection`. -/
def Statistics.addClassificationResult (s : Statistics) (_trackId : Nat)
    (result : List Tag) : Statistics :=
  let s := if Tag.wespe ∈ result then s.addDetection Tag.wespe else s
  let s := if Tag.varroa ∈ result then s.addDetection Tag.varroa else s
  let s := if Tag.pollen ∈ result then s.addDetection Tag.pollen else s
  let s := if Tag.cooling ∈ result then s.addDetection Tag.cooling else s
  s

/-- `Statistics.addClassificationResultByTag` (Statistics.py lines 95-100). -/
def Statistics.addClassificationResultByTag (s : Statistics) (_trackId : Nat)
    (tag : Tag) : Statistics :=
  s.addDetection tag

/-- `Statistics.readStatistics` (Statistics.py lines 102-113). -/
def Statistics.readStatistics (s : Statistics) :
    Int × Int × Int × Int × Int × Int × Int :=
  (s.wespenCount, s.varroaCount, s.pollenCount, s.coolingCount,
   s.beesIn, s.beesOut, s.processedFames)

/-- `Statistics.resetStatistics` (Statistics.py lines 128-137): clears the
since-last-read window counters, keeps the lifetime totals. -/
def Statistics.resetStatistics (s : Statistics) : Statistics :=
  { s with wespenCount := 0, varroaCount := 0, pollenCount := 0,
           coolingCount := 0, beesIn := 0, beesOut := 0, processedFames := 0 }

/-- Helper for stating theorems: the since-last-read window counter that
`Statistics.addDetection` increments for a given tag. -/
def Statistics.tagCount (s : Statistics) : Tag → Int
  | Tag.wespe => s.wespenCount
  | Tag.varroa => s.varroaCount
  | Tag.pollen => s.pollenCount
  | Tag.cooling => s.coolingCount

/-! ## Attribute-table model of the `Statistics` object (for the
attribute-name claim about `readOverallStatistics`)

Python objects are attribute dictionaries; the record model above cannot
express a read of a never-assigned attribute name, so the constructor and
every method are transcribed a second time as operations on an association
list from attribute names to integer values.  A read of an absent name
models the `AttributeError` Python raises. -/

def attrBeesIn : String := "_beesIn"

def attrBeesOut : String := "_beesOut"

def attrBeesInOverall : String := "_beesInOverall"

def attrBeesOutOverall : String := "_beesOutOverall"

def attrWespenCount : String := "_wespenCount"

def attrWespenCountOverall : String := "_wespenCountOverall"

def attrVarroaCount : String := "_varroaCount"

def attrVarroaCountOverall : String := "_varroaCountOverall"

def attrPollenCount : String := "_pollenCount"

def attrPollenCountOverall : String := "_pollenCountOverall"

def attrCoolingCount : String := "_coolingCount"

def attrCoolingCountOverall : String := "_coolingCountOverall"

def attrProcessedFames : String := "_processedFames"

/-- The misspelled attribute name actually assigned by `Statistics.__init__`
(Statistics.py line 33). -/
def attrProcessedFamesOverlall : String := "_processedFamesOverlall"

/-- The differently spelled attribute name read by
`Statistics.readOverallStatistics` (Statistics.py line 126). -/
def attrProcessedFamesOverall : String := "_processedFamesOverall"

/-- Attribute table created by `Statistics.__init__` (Statistics.py lines
17-33): exactly the fourteen assigned names, all zero. -/
def statisticsInitAttrs : List (String × Int) :=
  [(attrBeesIn, 0), (attrBeesOut, 0), (attrBeesInOverall, 0),
   (attrBeesOutOverall, 0), (attrWespenCount, 0), (attrWespenCountOverall, 0),
   (attrVarroaCount, 0), (attrVarroaCountOverall, 0), (attrPollenCount, 0),
   (attrPollenCountOverall, 0), (attrCoolingCount, 0),
   (attrCoolingCountOverall, 0), (attrProcessedFames, 0),
   (attrProcessedFamesOverlall, 0)]

/-- Attribute lookup (Python attribute access). -/
def alookup : List (String × Int) → String → Option Int
  | [], _ => none
  | p :: rest, k => if p.1 = k then some p.2 else alookup rest k

/-- Python `self.<name> += 1`: updates the attribute in place.  It never adds
a new attribute name to the table. -/
def incAttr (name : String) (attrs : List (String × Int)) :
    List (String × Int) :=
  attrs.map (fun p => if p.1 = name then (p.1, p.2 + 1) else p)

/-- Python `self.<name> = 0` on an existing attribute. -/
def zeroAttr (name : String) (attrs : List (String × Int)) :
    List (String × Int) :=
  attrs.map (fun p => if p.1 = name then (p.1, 0) else p)

/-- The mutating methods of `Statistics` (Statistics.py lines 35-137),
transcribed over the attribute table. -/
inductive StatOp
  | frameProcessed
  | addBeeIn
  | addBeeOut
  | addDetection (tag : Tag)
  | addClassificationResult (result : List Tag)
  | addClassificationResultByTag (tag : Tag)
  | resetStatistics

/-- `Statistics.addDetection` over the attribute table. -/
def addDetectionAttrs (tag : Tag) (a : List (String × Int)) :
    List (String × Int) :=
  let a := if Tag.wespe = tag then
    incAttr attrWespenCountOverall (incAttr attrWespenCount a) else a
  let a := if Tag.varroa = tag then
    incAttr attrVarroaCountOverall (incAttr attrVarroaCount a) else a
  let a := if Tag.pollen = tag then
    incAttr attrPollenCountOverall (incAttr attrPollenCount a) else a
  let a := if Tag.cooling = tag then
    incAttr attrCoolingCountOverall (incAttr attrCoolingCount a) else a
  a

/-- One `Statistics` method call over the attribute table. -/
def applyStatOp (a : List (String × Int)) : StatOp → List (String × Int)
  | StatOp.frameProcessed =>
      incAttr attrProcessedFamesOverlall (incAttr attrProcessedFames a)
  | StatOp.addBeeIn => incAttr attrBeesInOverall (incAttr attrBeesIn a)
  | StatOp.addBeeOut => incAttr attrBeesOutOverall (incAttr attrBeesOut a)
  | StatOp.addDetection tag => addDetectionAttrs tag a
  | StatOp.addClassificationResult result =>
      let a := if Tag.wespe ∈ result then addDetectionAttrs Tag.wespe a else a
      let a := if Tag.varroa ∈ result then addDetectionAttrs Tag.varroa a else a
      let a := if Tag.pollen ∈ result then addDetectionAttrs Tag.pollen a else a
      let a := if Tag.cooling ∈ result then addDetectionAttrs Tag.cooling a else a
      a
  | StatOp.addClassificationResultByTag tag => addDetectionAttrs tag a
  | StatOp.resetStatistics =>
      zeroAttr attrProcessedFames (zeroAttr attrBeesOut (zeroAttr attrBeesIn
        (zeroAttr attrCoolingCount (zeroAttr attrPollenCount
          (zeroAttr attrVarroaCount (zeroAttr attrWespenCount a))))))

/-- Any sequence of `Statistics` method calls applied to the freshly
constructed object. -/
def applyStatOps (ops : List StatOp) : List (String × Int) :=
  ops.foldl applyStatOp statisticsInitAttrs

/-- Attribute read that models Python `getattr`: `Except.error name` models
the `AttributeError` raised for a missing attribute `name`. -/
def getattrInt (a : List (String × Int)) (name : String) : Except String Int :=
  match alookup a name with
  | some v => Except.ok v
  | none => Except.error name

/-- `Statistics.readOverallStatistics` (Statistics.py lines 115-126) over the
attribute table: reads the six lifetime counters and then the attribute name
`_processedFamesOverall`, which `__init__` never assigned (it assigned
`_processedFamesOverlall` instead). -/
def readOverallStatistics (a : List (String × Int)) :
    Except String (Int × Int × Int × Int × Int × Int × Int) :=
  match getattrInt a attrWespenCountOverall with
  | Except.error e => Except.error e
  | Except.ok v1 =>
  match getattrInt a attrVarroaCountOverall with
  | Except.error e => Except.error e
  | Except.ok v2 =>
  match getattrInt a attrPollenCountOverall with
  | Except.error e => Except.error e
  | Except.ok v3 =>
  match getattrInt a attrCoolingCountOverall with
  | Except.error e => Except.error e
  | Except.ok v4 =>
  match getattrInt a attrBeesInOverall with
  | Except.error e => Except.error e
  | Except.ok v5 =>
  match getattrInt a attrBeesOutOverall with
  | Except.error e => Except.error e
  | Except.ok v6 =>
  match getattrInt a attrProcessedFamesOverall with
  | Except.error e => Except.error e
  | Except.ok v7 => Except.ok (v1, v2, v3, v4, v5, v6, v7)

/-! ## LoRaWAN reporting (LoRaWANThread.py) -/

/-- The number of seconds the reporting loop of `LoRaWANThread.run` actually
waits between transmissions (LoRaWANThread.py line 162: the loop keeps
sleeping while `_start_t + (60 * 1) > time.time()`). -/
def lorawanWaitSeconds : Nat := 60 * 1

/-- The wait-loop condition of `LoRaWANThread.run` (line 162): the loop keeps
sleeping while it returns `true`.  Times are in seconds (the source uses
float seconds from `time.time()`). -/
def lorawanWaitContinues (stopped : Bool) (startT now : Int) : Bool :=
  !stopped && decide (startT + (60 * 1 : Int) > now)

/-- Modelled from the spec: the five-minute reporting interval stated by the
spec and by the docstring and comments of `LoRaWANThread.run`, in seconds. -/
def spec_reportIntervalSeconds : Nat := 5 * 60

/-- Two's-complement 16-bit image of an integer, as `struct.pack` computes
for format character `h` after range checking. -/
def toUInt16mod (x : Int) : Nat := (x % 65536).toNat

/-- `struct.pack` of one int16 counter into two bytes, least significant byte
first (the native byte order of the target platforms). -/
def packInt16 (x : Int) : List Nat :=
  [toUInt16mod x % 256, toUInt16mod x / 256]

/-- `struct.pack("hhhhhh", *data)` (LoRaWANThread.py line 134): six int16
values packed back to back into twelve bytes. -/
def packSix (a b c d e f : Int) : List Nat :=
  packInt16 a ++ packInt16 b ++ packInt16 c ++ packInt16 d ++
    packInt16 e ++ packInt16 f

/-- One uppercase hexadecimal digit, as produced by the `"%02X"` format. -/
def hexDigitChar (n : Nat) : Char :=
  if n < 10 then Char.ofNat (48 + n) else Char.ofNat (55 + n)

/-- The two characters `"%02X" % byte` appends for one byte
(LoRaWANThread.py lines 137-139). -/
def byteHexChars (b : Nat) : List Char :=
  [hexDigitChar (b / 16), hexDigitChar (b % 16)]

/-- The hex string built by the loop at LoRaWANThread.py lines 137-139:
two uppercase hex digits per byte, in byte order. -/
def hexEncodeBytes (bs : List Nat) : String :=
  String.mk (bs.map byteHexChars).flatten

/-- Numeric value of one uppercase hexadecimal digit character. -/
def hexVal (c : Char) : Nat :=
  if c.toNat < 65 then c.toNat - 48 else c.toNat - 55

/-- Hex-to-bytes decoding: consumes the character list two digits at a
time. -/
def hexDecodeChars : List Char → List Nat
  | c0 :: c1 :: rest => (hexVal c0 * 16 + hexVal c1) :: hexDecodeChars rest
  | _ => []

/-- Hex-to-bytes decoding of a payload string. -/
def hexDecode (s : String) : List Nat :=
  hexDecodeChars s.data

/-- int16 unpack of two bytes, least significant byte first. -/
def unpackInt16 (b0 b1 : Nat) : Int :=
  let n : Int := (b0 : Int) + 256 * (b1 : Int)
  if n < 32768 then n else n - 65536

/-- `struct.unpack` of six int16 values from twelve bytes. -/
def unpackSix (bs : List Nat) : List Int :=
  match bs with
  | [a0, a1, b0, b1, c0, c1, d0, d1, e0, e1, f0, f1] =>
      [unpackInt16 a0 a1, unpackInt16 b0 b1, unpackInt16 c0 c1,
       unpackInt16 d0 d1, unpackInt16 e0 e1, unpackInt16 f0 f1]
  | _ => []

/-! ## Bee tracking (BeeTracking.py)

Coordinates are elements of an arbitrary `LinearOrderedCommRing α`
(instantiated with `Int` in concrete evaluations).  The Kalman filter of
`filterpy` is a float-matrix computation; it is represented by an abstract
state type `κ` together with the four operations the tracking code invokes
on it, so every theorem below holds for every Kalman filter behaviour. -/

/-- One detection as `BeeTracker.update` stores it (BeeTracking.py lines
319-323): the cv2 ellipse `((cx, cy), (w, h), angle)` flattened into a
5-vector.  Index 0 is `cx`, index 1 is `cy`. -/
structure Det (α : Type) where
  cx : α
  cy : α
  w : α
  h : α
  ang : α
deriving DecidableEq

/-- The operations `BeeTrack` invokes on its `filterpy` Kalman filter state
`κ`.  `predictK` returns the new filter state together with the components
`(x[0], x[3])` of the predicted state vector, the only components the
tracking code reads; `dampK` is the halving of the velocity and acceleration
components done for tracks inside a group (lines 352-356); `updateK` is
`KF.update(position[0:2])`; `setPosK` writes `x[0]` and `x[3]`. -/
structure KFModel (α κ : Type) where
  predictK : κ → κ × (α × α)
  updateK : α → α → κ → κ
  dampK : κ → κ
  setPosK : α → α → κ → κ
  initK : κ

/-- State of one `BeeTrack` (BeeTracking.py lines 30-78).  The display name
set by `setTrackName` (a randomly chosen string used only for drawing) is
omitted.  `lastPredict` holds the components `(x[0], x[3])` of the last
prediction, the only components ever read; it is first assigned by
`predict`, which the tracker always calls before any read, so its initial
value is never observed. -/
structure BeeTrack (α κ : Type) where
  trackId : Nat
  lastDetect : Det α
  trace : List (Det α)
  skipped_frames : Nat
  processed_frames : Nat
  tags : List Tag
  reportedTags : List Tag
  firstPosition : Det α
  inGroup : Bool
  tagCnts : Tag → Nat
  KF : κ
  lastPredict : α × α

/-- Python set insertion `s |= set((tag,))` on a duplicate-free list. -/
def insertTag (l : List Tag) (tag : Tag) : List Tag :=
  if tag ∈ l then l else l ++ [tag]

/-- `BeeTrack.addTag` (BeeTracking.py lines 86-107), returning the updated
track and statistics.  The dictionary `__tagCnts` is modelled as a total
function with default 0; the two first source lines create the missing key
with value 0 and increment it. -/
def BeeTrack.addTag (t : BeeTrack α κ) (st : Statistics) (tag : Tag) :
    BeeTrack α κ × Statistics :=
  let cnts : Tag → Nat := fun g => if g = tag then t.tagCnts g + 1 else t.tagCnts g
  let t1 := { t with tagCnts := cnts }
  if tag = Tag.cooling ∧ cnts tag < 5 then (t1, st)
  else
    let st := if tag ∉ t1.reportedTags then
      Statistics.addClassificationResultByTag st t1.trackId tag else st
    ({ t1 with tags := insertTag t1.tags tag,
               reportedTags := insertTag t1.reportedTags tag }, st)

/-- `BeeTrack.imageClassificationComplete` (BeeTracking.py lines 109-116):
calls `addTag` for each of WESPE, VARROA, COOLING, POLLEN present in the
result, in that source order. -/
def BeeTrack.imageClassificationComplete (t : BeeTrack α κ) (st : Statistics)
    (result : List Tag) : BeeTrack α κ × Statistics :=
  let p := (t, st)
  let p := if Tag.wespe ∈ result then BeeTrack.addTag p.1 p.2 Tag.wespe else p
  let p := if Tag.varroa ∈ result then BeeTrack.addTag p.1 p.2 Tag.varroa else p
  let p := if Tag.cooling ∈ result then BeeTrack.addTag p.1 p.2 Tag.cooling else p
  let p := if Tag.pollen ∈ result then BeeTrack.addTag p.1 p.2 Tag.pollen else p
  p

/-- Append to the bounded `deque(maxlen=MAX_BEE_TRACE_LENGTH)` trace: the
oldest entries fall out when the bound is exceeded. -/
def dequeAppend (maxlen : Nat) (xs : List (Det α)) (x : Det α) :
    List (Det α) :=
  let ys := xs ++ [x]
  if maxlen < ys.length then ys.drop (ys.length - maxlen) else ys

/-- The last element of the trace (`trace[-1]`); the trace of every live
track is nonempty (a track is created through `setPosition`), so the
fallback value is never observed. -/
def traceLast (t : BeeTrack α κ) : Det α :=
  t.trace.getLastD t.firstPosition

/-- `BeeTrack.setPosition` (BeeTracking.py lines 118-128). -/
def BeeTrack.setPosition (M : KFModel α κ) (maxTrace : Nat)
    (t : BeeTrack α κ) (pos : Det α) : BeeTrack α κ :=
  let t := { t with KF := M.setPosK pos.cx pos.cy t.KF }
  let t := if t.trace.length = 0 then { t with firstPosition := pos } else t
  { t with trace := dequeAppend maxTrace t.trace pos }

/-- `BeeTrack.correct` (BeeTracking.py lines 137-142). -/
def BeeTrack.correct (M : KFModel α κ) (maxTrace : Nat)
    (t : BeeTrack α κ) (pos : Det α) : BeeTrack α κ :=
  { t with trace := dequeAppend maxTrace t.trace pos,
           KF := M.updateK pos.cx pos.cy t.KF }

/-- The track constructed for an unmatched detection in `BeeTracker.update`
(BeeTracking.py lines 473-477): `BeeTrack.__init__` followed by assigning
`_lastDetect` and calling `setPosition`.  The initial `lastPredict` value is
never read (see `BeeTrack`). -/
def mkBeeTrack (M : KFModel α κ) (maxTrace : Nat) (trackId : Nat)
    (d : Det α) : BeeTrack α κ :=
  BeeTrack.setPosition M maxTrace
    { trackId := trackId, lastDetect := d, trace := [],
      skipped_frames := 0, processed_frames := 0, tags := [],
      reportedTags := [], firstPosition := d, inGroup := false,
      tagCnts := fun _ => 0, KF := M.initK, lastPredict := (d.cx, d.cy) } d

/-- State of the `BeeTracker` (BeeTracking.py lines 149-159). -/
structure BeeTracker (α κ : Type) where
  dist_threshold : α
  max_frame_skipped : Nat
  trackId : Nat
  tracks : List (BeeTrack α κ)
  frame_height : Nat
  frame_width : Nat

/-- `BeeTracker.getTrackById` (BeeTracking.py lines 161-169): first track
with a matching id, if any. -/
def getTrackById : List (BeeTrack α κ) → Nat → Option (BeeTrack α κ)
  | [], _ => none
  | t :: ts, tid => if t.trackId = tid then some t else getTrackById ts tid

/-- `BeeTracker.isOutOfPane` (BeeTracking.py lines 280-285).  The source
passes a position sequence and reads its index 1; the embedding takes that
y-coordinate directly. -/
def isOutOfPane [LinearOrderedCommRing α] (frameHeight : Nat) (y : α) : Bool :=
  decide (y < 5) || decide (y > ((frameHeight : α) - 5))

/-- `BeeTracker._delTrack` (BeeTracking.py lines 287-314), acting on the
track list and the statistics object.  `int(self._frame_height / 2)` is the
floor of half the (positive integer) frame height. -/
def delTrack [LinearOrderedCommRing α] (frameHeight : Nat)
    (tracks : List (BeeTrack α κ)) (st : Statistics) (trackId : Nat)
    (count : Bool) : List (BeeTrack α κ) × Statistics :=
  match tracks.get? trackId with
  | none => (tracks, st)
  | some track =>
    let st :=
      if count then
        let f_y := track.firstPosition.cy
        let l_y := (traceLast track).cy
        let pH : α := ((frameHeight / 2 : Nat) : α)
        let st := if f_y > pH ∧ l_y ≤ pH then st.addBeeIn else st
        let st := if f_y < pH ∧ l_y ≥ pH then st.addBeeOut else st
        st
      else st
    (tracks.eraseIdx trackId, st)

/-- Squared Euclidean distance between two points.  The source computes
`sqrt(dx*dx + dy*dy)` and only compares the results with each other and with
thresholds; comparing squares is an exact reformulation. -/
def sqPDist [CommRing α] (x1 y1 x2 y2 : α) : α :=
  (x1 - x2) * (x1 - x2) + (y1 - y2) * (y1 - y2)

/-- One entry of `dist_list` (BeeTracking.py lines 336-379): the (squared)
distance, the track index `num_t` and the detection index `num_d`. -/
structure DistEntry (α : Type) where
  dist : α
  t : Nat
  d : Nat
deriving DecidableEq

/-- Preparation of one track in `BeeTracker.update` (BeeTracking.py lines
338-379): group flag, skipped-frame bump, in-group damping, prediction, and
the distance entries this track contributes, in source order (for in-group
tracks the last-detection entry precedes the prediction entry for each
detection). -/
def trackPrep [LinearOrderedCommRing α] (M : KFModel α κ)
    (inEll : Det α → γ → Bool) (groups : List γ) (dets : List (Det α))
    (numT : Nat) (t : BeeTrack α κ) : BeeTrack α κ × List (DistEntry α) :=
  let ig := groups.foldl (fun b g => b || inEll (traceLast t) g) false
  let t := { t with inGroup := ig }
  let t := { t with skipped_frames := t.skipped_frames + 1 }
  let t := if ig then
    { t with KF := M.dampK t.KF, skipped_frames := t.skipped_frames - 1 }
    else t
  let pk := M.predictK t.KF
  let t := { t with KF := pk.1, lastPredict := pk.2 }
  let entries := (List.range dets.length).foldl (fun acc numD =>
    match dets.get? numD with
    | none => acc
    | some d =>
      let acc := if ig then
        acc ++ [⟨sqPDist t.lastDetect.cx t.lastDetect.cy d.cx d.cy, numT, numD⟩]
        else acc
      acc ++ [⟨sqPDist pk.2.1 pk.2.2 d.cx d.cy, numT, numD⟩]) []
  (t, entries)

/-- The preparation loop over all tracks, in order, with their indices. -/
def prepPhase [LinearOrderedCommRing α] (M : KFModel α κ)
    (inEll : Det α → γ → Bool) (groups : List γ) (dets : List (Det α)) :
    Nat → List (BeeTrack α κ) → List (BeeTrack α κ) × List (DistEntry α)
  | _, [] => ([], [])
  | i, t :: ts =>
    let r := trackPrep M inEll groups dets i t
    let rest := prepPhase M inEll groups dets (i + 1) ts
    (r.1 :: rest.1, r.2 ++ rest.2)

/-- The local variable `distance` computed at BeeTracking.py lines 404-420:
the base threshold, doubled for tracks with more hits than misses (lines
409-415 state this condition twice) and for tracks inside a group. -/
def gateDistance [LinearOrderedCommRing α] (θ : α) (tr : BeeTrack α κ) : α :=
  let distance := θ
  let distance := if tr.processed_frames > tr.skipped_frames then θ * 2 else distance
  let distance := if tr.processed_frames > tr.skipped_frames then θ * 2 else distance
  let distance := if tr.inGroup then θ * 2 else distance
  distance

/-- The filter actually applied at BeeTracking.py line 422:
`filter(lambda x: x[0] < self.dist_threshold, per_track)` uses the base
threshold `self.dist_threshold`, not the computed `distance` variable.
Entries hold squared distances, so the comparison squares the threshold. -/
def byDistFilter [LinearOrderedCommRing α] (θ : α)
    (per_track : List (DistEntry α)) : List (DistEntry α) :=
  per_track.filter (fun x => decide (x.dist < θ * θ))

/-- State of the assignment loop (BeeTracking.py lines 385-432). -/
structure MatchState (α κ : Type) where
  tracks : List (BeeTrack α κ)
  used_tracks : List Nat
  used_detections : List Nat

/-- The `matched` helper of `BeeTracker.update` (BeeTracking.py lines
326-334). -/
def matchedStep [LinearOrderedCommRing α] (M : KFModel α κ) (maxTrace : Nat)
    (dets : List (Det α)) (s : MatchState α κ) (e : DistEntry α) :
    MatchState α κ :=
  match dets.get? e.d with
  | none => s
  | some dd =>
    { tracks := s.tracks.modify (fun tr =>
        let tr := { tr with lastDetect := dd }
        let tr := BeeTrack.correct M maxTrace tr dd
        { tr with skipped_frames := 0,
                  processed_frames := tr.processed_frames + 1 }) e.t,
      used_tracks := s.used_tracks ++ [e.t],
      used_detections := s.used_detections ++ [e.d] }

/-- One iteration of the assignment loop (BeeTracking.py lines 388-432).
The `distance` gate variable is bound exactly as in the source and, as in
the source, never used afterwards; both nonempty cases of `by_dist` call
`matched(by_dist[0])`. -/
def assignStep [LinearOrderedCommRing α] (M : KFModel α κ) (maxTrace : Nat)
    (θ : α) (dets : List (Det α)) (dist_list : List (DistEntry α))
    (s : MatchState α κ) (e : DistEntry α) : MatchState α κ :=
  if e.t ∈ s.used_tracks ∨ e.d ∈ s.used_detections then s
  else
    match s.tracks.get? e.t with
    | none => s
    | some track =>
      let per_track := dist_list.filter (fun x => decide (x.t = e.t))
      let per_track := per_track.filter
        (fun x => decide (x.d ∉ s.used_detections))
      let distance := gateDistance θ track
      let by_dist := byDistFilter θ per_track
      match by_dist with
      | [] => s
      | x :: _ => matchedStep M maxTrace dets s x

/-- One iteration of the track-removal loop (BeeTracking.py lines 441-465),
at the original track index `num_t`.  The loop runs over indices in
decreasing order, so the element at `num_t` is still the original one when
it is examined. -/
def removalStep [LinearOrderedCommRing α] (frameHeight maxSkip : Nat)
    (used_tracks : List Nat)
    (p : List (BeeTrack α κ) × Statistics) (num_t : Nat) :
    List (BeeTrack α κ) × Statistics :=
  match p.1.get? num_t with
  | none => p
  | some item =>
    if num_t ∉ used_tracks ∧ item.skipped_frames > 0 ∧
        item.processed_frames = 0 then
      delTrack frameHeight p.1 p.2 num_t false
    else if num_t ∉ used_tracks ∧
        item.skipped_frames > item.processed_frames then
      delTrack frameHeight p.1 p.2 num_t false
    else if item.skipped_frames > maxSkip then
      delTrack frameHeight p.1 p.2 num_t false
    else if isOutOfPane frameHeight (traceLast item).cy then
      delTrack frameHeight p.1 p.2 num_t true
    else if isOutOfPane frameHeight item.lastPredict.2 then
      delTrack frameHeight p.1 p.2 num_t true
    else p

/-- Creation of new tracks for unmatched detections (BeeTracking.py lines
467-478). -/
def createPhase [LinearOrderedCommRing α] (M : KFModel α κ) (maxTrace : Nat)
    (dets : List (Det α)) (used_detections : List Nat)
    (acc : List (BeeTrack α κ) × Nat) : List (BeeTrack α κ) × Nat :=
  let unmatched := (List.range dets.length).filter
    (fun x => decide (x ∉ used_detections))
  unmatched.foldl (fun acc i =>
    match dets.get? i with
    | none => acc
    | some d => (acc.1 ++ [mkBeeTrack M maxTrace acc.2 d], acc.2 + 1)) acc

/-- `BeeTracker.update` (BeeTracking.py lines 316-480).  Returns the pair
`(IN, OUT)` the source returns, the updated tracker and the updated
statistics.  `inEll` abstracts `pointInEllipse` (a float trigonometric
computation in Utils.py) and `γ` the group representation. -/
def BeeTracker.update [LinearOrderedCommRing α] (M : KFModel α κ)
    (inEll : Det α → γ → Bool) (maxTrace : Nat) (tk : BeeTracker α κ)
    (st : Statistics) (dets : List (Det α)) (groups : List γ) :
    (Int × Int) × BeeTracker α κ × Statistics :=
  let prep := prepPhase M inEll groups dets 0 tk.tracks
  let dist_list := prep.2.mergeSort (fun a b => decide (a.dist ≤ b.dist))
  let ms := (dist_list.foldl
    (assignStep M maxTrace tk.dist_threshold dets dist_list)
    ⟨prep.1, [], []⟩ : MatchState α κ)
  let IN : Int := 0
  let OUT : Int := 0
  let removed := ((List.range ms.tracks.length).reverse).foldl
    (removalStep tk.frame_height tk.max_frame_skipped ms.used_tracks)
    (ms.tracks, st)
  let created := createPhase M maxTrace dets ms.used_detections
    (removed.1, tk.trackId)
  ((IN, OUT),
   { tk with tracks := created.1, trackId := created.2 }, removed.2)

/-- Classification-result dispatch of `ImageConsumer.run` (ImageConsumer.py
lines 86-96): a result whose track still exists is merged into the track;
a result whose track was already retired goes directly to
`Statistics.addClassificationResult`. -/
def handleClassifierResult
    (tracks : List (BeeTrack α κ)) (st : Statistics) (trackId : Nat)
    (result : List Tag) : List (BeeTrack α κ) × Statistics :=
  match getTrackById tracks trackId with
  | some tr =>
    let p := BeeTrack.imageClassificationComplete tr st result
    (tracks.map (fun t => if t.trackId = trackId then p.1 else t), p.2)
  | none => (tracks, Statistics.addClassificationResult st trackId result)

/-! ## Bee detection merge pass (BeeDetection.py lines 64-103) -/

/-- A fitted single-bee ellipse `((cx, cy), (ax1, ax2), angle)`. -/
structure Ellipse (α : Type) where
  cx : α
  cy : α
  ax1 : α
  ax2 : α
  ang : α
deriving DecidableEq

/-- Squared center distance between two ellipses.  The source helper `near`
computes `sqrt((dx)^2 + (dy)^2)` and compares it with 50; comparing the
square with 2500 is exact. -/
def sqCdist [CommRing α] (a b : Ellipse α) : α :=
  (a.cx - b.cx) * (a.cx - b.cx) + (a.cy - b.cy) * (a.cy - b.cy)

/-- The area sort key.  The source helper `area` returns `pi * ax1 * ax2`;
the positive constant factor `pi` does not change any comparison, so the
embedding uses `ax1 * ax2`. -/
def areaKey [CommRing α] (e : Ellipse α) : α := e.ax1 * e.ax2

/-- Python `max(group, key=area)` on a nonempty group: keeps the first
element of maximal key, replacing the current best only on a strictly
greater key. -/
def maxByAreaAux [LinearOrderedCommRing α] (best : Ellipse α)
    (l : List (Ellipse α)) : Ellipse α :=
  l.foldl (fun best x => if areaKey best < areaKey x then x else best) best

/-- The inner loop body of the merge pass (BeeDetection.py lines 72-93),
acting on the state `(done, skip, group)`. -/
def mergeInner [LinearOrderedCommRing α] (a : Ellipse α)
    (s : List (Ellipse α × Ellipse α) × List (Ellipse α) × List (Ellipse α))
    (b : Ellipse α) :
    List (Ellipse α × Ellipse α) × List (Ellipse α) × List (Ellipse α) :=
  let done := s.1
  let skip := s.2.1
  let group := s.2.2
  if (a, b) ∈ done ∨ (b, a) ∈ done ∨ a = b then (done, skip, group)
  else
    let done := done ++ [(a, b)]
    if sqCdist a b < 50 * 50 then
      let group := if a ∈ group then group else group ++ [a]
      let group := if b ∈ group then group else group ++ [b]
      let skip := if a ∈ skip then skip else skip ++ [a]
      let skip := if b ∈ skip then skip else skip ++ [b]
      (done, skip, group)
    else (done, skip, group)

/-- The outer loop body of the merge pass (BeeDetection.py lines 68-97):
runs the inner loop with an empty group and, when the group is nonempty,
appends its largest-area member to `solved`. -/
def mergeOuter [LinearOrderedCommRing α] (es : List (Ellipse α))
    (s : List (Ellipse α × Ellipse α) × List (Ellipse α) × List (Ellipse α))
    (a : Ellipse α) :
    List (Ellipse α × Ellipse α) × List (Ellipse α) × List (Ellipse α) :=
  let r := es.foldl (mergeInner a) (s.1, s.2.1, [])
  match r.2.2 with
  | [] => (r.1, r.2.1, s.2.2)
  | h :: t => (r.1, r.2.1, s.2.2 ++ [maxByAreaAux h t])

/-- The merge pass of `detect_bees` (BeeDetection.py lines 64-103): group
nearby ellipses, keep each group's largest-area member, and append those
representatives to the ellipses that never paired with any other. -/
def mergePass [LinearOrderedCommRing α] (es : List (Ellipse α)) :
    List (Ellipse α) :=
  let r := es.foldl (mergeOuter es) ([], [], [])
  (es.filter (fun x => decide (x ∉ r.2.1))) ++ r.2.2

/-! ## Frame-geometry configuration validation (ImageProvider.py lines
40-62) -/

/-- A Python value that may or may not be an `int` (the source checks
`type(item) != int`); non-integer numerics are represented by a rational. -/
inductive PyNum
  | int (n : Int)
  | float (q : Rat)
deriving DecidableEq

/-- Whether the Python value is an `int`. -/
def PyNum.isInt : PyNum → Bool
  | PyNum.int _ => true
  | PyNum.float _ => false

/-- Numeric value of a `PyNum`. -/
def PyNum.val : PyNum → Rat
  | PyNum.int n => (n : Rat)
  | PyNum.float q => q

/-- Modelled from the spec: the OpenCV color-mode constant for full-color
(`cv2.IMREAD_COLOR`); the three constants are pairwise distinct and only
their identity matters to the check. -/
def IMREAD_COLOR : Int := 1

/-- Modelled from the spec: `cv2.IMREAD_GRAYSCALE`. -/
def IMREAD_GRAYSCALE : Int := 0

/-- Modelled from the spec: `cv2.IMREAD_UNCHANGED`. -/
def IMREAD_UNCHANGED : Int := -1

/-- One frame-configuration triple `(height, width, colorMode)`. -/
structure FrameCfgItem where
  height : PyNum
  width : PyNum
  colorMode : Int
deriving DecidableEq

/-- The errors `ImageProvider.__init__` can raise while validating the frame
configuration (ImageProvider.py lines 43-53). -/
inductive CfgError
  | noConfig
  | item1NotInt
  | item2NotInt
  | item3BadMode
deriving DecidableEq

/-- The per-item loop of the validation (ImageProvider.py lines 47-58):
checks that heights and widths are `int` and the color mode is one of the
three constants.  `maxW`/`maxH` reproduce the running maxima the source
tracks; the source never compares consecutive items or raises on the
maxima, so they do not influence the result. -/
def validateItems (maxW maxH : Rat) :
    List FrameCfgItem → Except CfgError Unit
  | [] => Except.ok ()
  | item :: rest =>
    if !item.height.isInt then Except.error CfgError.item1NotInt
    else if !item.width.isInt then Except.error CfgError.item2NotInt
    else if item.colorMode ≠ IMREAD_COLOR ∧ item.colorMode ≠ IMREAD_GRAYSCALE ∧
        item.colorMode ≠ IMREAD_UNCHANGED then
      Except.error CfgError.item3BadMode
    else
      let maxW := if maxW < item.height.val then item.height.val else maxW
      let maxH := if maxH < item.width.val then item.width.val else maxH
      validateItems maxW maxH rest

/-- The frame-configuration validation performed by
`ImageProvider.__init__` before any stage starts (ImageProvider.py lines
40-58): an empty list is rejected, then each item is checked in order. -/
def validateFrameConfig (cfg : List FrameCfgItem) : Except CfgError Unit :=
  if cfg.length = 0 then Except.error CfgError.noConfig
  else validateItems 0 0 cfg

/-- Modelled from the spec: the acceptance condition the spec claims for the
frame configuration, namely a strictly decreasing resolution sequence, all
dimensions positive integers, and a valid color mode for every item. -/
def spec_frameConfigOk (cfg : List FrameCfgItem) : Prop :=
  List.Chain' (fun a b =>
      b.height.val < a.height.val ∧ b.width.val < a.width.val) cfg
    ∧ ∀ item ∈ cfg, item.height.isInt ∧ item.width.isInt ∧
        0 < item.height.val ∧ 0 < item.width.val ∧
        (item.colorMode = IMREAD_COLOR ∨ item.colorMode = IMREAD_GRAYSCALE ∨
          item.colorMode = IMREAD_UNCHANGED)

/-- A sequence of classifier tag observations merged into one track through
`BeeTrack.addTag`, in observation order. -/
def runTags (t : BeeTrack α κ) (st : Statistics) (s : List Tag) :
    BeeTrack α κ × Statistics :=
  s.foldl (fun p g => BeeTrack.addTag p.1 p.2 g) (t, st)

/-- Helper for stating theorems: the number of `addTag` observations after
which a tag enters the confirmed tag set — 5 for the debounced cooling tag,
1 for every other kind (read off `BeeTrack.addTag`). -/
def tagThreshold (g : Tag) : Nat :=
  if g = Tag.cooling then 5 else 1

/-- A concrete track over integer coordinates for evaluating the removal
counting: created below the midline of a frame of height 540 (first position
y = 300) and last seen above it (y = 10). -/
def c2ExampleTrack : BeeTrack Int Unit :=
  { trackId := 0, lastDetect := ⟨0, 10, 0, 0, 0⟩,
    trace := [⟨0, 300, 0, 0, 0⟩, ⟨0, 10, 0, 0, 0⟩],
    skipped_frames := 0, processed_frames := 1, tags := [],
    reportedTags := [], firstPosition := ⟨0, 300, 0, 0, 0⟩,
    inGroup := false, tagCnts := fun _ => 0, KF := (),
    lastPredict := (0, 0) }

/-! ## Theorems -/

/-- C3: for every Kalman-filter model, group-membership test, trace bound,
prior tracker state, statistics state, detection list and group list,
`BeeTracker.update` returns the pair `(0, 0)` as its in/out counts: the
local `IN` and `OUT` variables are initialized to zero and never modified,
so enter/exit counts reach the statistics object only through the
`_delTrack` side effect, never through the return value. -/
theorem update_returns_zero_counts [LinearOrderedCommRing α]
    (M : KFModel α κ) (inEll : Det α → γ → Bool) (maxTrace : Nat)
    (tk : BeeTracker α κ) (st : Statistics) (dets : List (Det α))
    (groups : List γ) :
    (BeeTracker.update M inEll maxTrace tk st dets groups).1 = (0, 0) :=
  rfl

/-- C6: the reporting loop of `LoRaWANThread.run` waits 60 seconds between
transmissions, not the five minutes (300 seconds) stated by the claim and by
the source's own docstring and comments: 120 seconds after `_start_t` the
wait loop has already ended even though the thread was not stopped and less
than half of the documented interval has elapsed. -/
theorem lorawanWait_is_60_not_300 :
    lorawanWaitSeconds = 60 ∧ spec_reportIntervalSeconds = 300 ∧
    lorawanWaitSeconds < spec_reportIntervalSeconds ∧
    lorawanWaitContinues false 0 120 = false := by
  decide

/-- C1: the doubled gate is computed but not applied.  For a track inside a
group with no processed or skipped frames and base threshold 50, the
`distance` variable of BeeTracking.py lines 404-420 is the doubled gate 100,
and a candidate detection at Euclidean distance 60 (squared distance 3600)
lies inside that doubled gate; yet the filter actually executed at line 422
compares against the base threshold 50 and rejects the candidate, so the
gate distance actually applied is not the doubled one the claim states. -/
theorem gate_doubling_computed_but_not_applied :
    gateDistance (50 : Int)
      ({ trackId := 0, lastDetect := ⟨0, 0, 0, 0, 0⟩,
         trace := [⟨0, 0, 0, 0, 0⟩], skipped_frames := 0,
         processed_frames := 0, tags := [], reportedTags := [],
         firstPosition := ⟨0, 0, 0, 0, 0⟩, inGroup := true,
         tagCnts := fun _ => 0, KF := (), lastPredict := (0, 0) } :
        BeeTrack Int Unit) = 100 ∧
    (⟨3600, 0, 0⟩ : DistEntry Int).dist < 100 * 100 ∧
    byDistFilter (50 : Int) [(⟨3600, 0, 0⟩ : DistEntry Int)] = [] := by
  refine ⟨rfl, by decide, ?_⟩
  decide

/-- Keys of the attribute table are unchanged by `incAttr`. -/
theorem keys_incAttr (n : String) (a : List (String × Int)) :
    (incAttr n a).map Prod.fst = a.map Prod.fst := by
  unfold incAttr
  induction a with
  | nil => rfl
  | cons p rest ih =>
    simp only [List.map_cons, ih]
    congr 1
    split <;> rfl

/-- Keys of the attribute table are unchanged by `zeroAttr`. -/
theorem keys_zeroAttr (n : String) (a : List (String × Int)) :
    (zeroAttr n a).map Prod.fst = a.map Prod.fst := by
  unfold zeroAttr
  induction a with
  | nil => rfl
  | cons p rest ih =>
    simp only [List.map_cons, ih]
    congr 1
    split <;> rfl

/-- Keys of the attribute table are unchanged by `addDetectionAttrs`. -/
theorem keys_addDetectionAttrs (tag : Tag) (a : List (String × Int)) :
    (addDetectionAttrs tag a).map Prod.fst = a.map Prod.fst := by
  unfold addDetectionAttrs
  split_ifs <;> simp [keys_incAttr]

/-- No `Statistics` method adds or removes an attribute name: every method
only updates attributes in place. -/
theorem keys_applyStatOp (a : List (String × Int)) (op : StatOp) :
    (applyStatOp a op).map Prod.fst = a.map Prod.fst := by
  cases op with
  | addClassificationResult result =>
    simp only [applyStatOp]
    split_ifs <;> simp [keys_addDetectionAttrs]
  | _ =>
    simp [applyStatOp, keys_incAttr, keys_zeroAttr, keys_addDetectionAttrs]

/-- After any sequence of method calls starting from the constructor, the
attribute table has exactly the names assigned by `Statistics.__init__`. -/
theorem keys_applyStatOps (ops : List StatOp) :
    (applyStatOps ops).map Prod.fst = statisticsInitAttrs.map Prod.fst := by
  unfold applyStatOps
  suffices h : ∀ a : List (String × Int),
      (ops.foldl applyStatOp a).map Prod.fst = a.map Prod.fst from h _
  induction ops with
  | nil => intro a; rfl
  | cons op rest ih =>
    intro a
    simpa [List.foldl_cons, keys_applyStatOp] using
      (ih (applyStatOp a op)).trans (keys_applyStatOp a op)

/-- Attribute lookup fails exactly for names outside the key list. -/
theorem alookup_eq_none_iff (a : List (String × Int)) (k : String) :
    alookup a k = none ↔ k ∉ a.map Prod.fst := by
  induction a with
  | nil => simp [alookup]
  | cons p rest ih =>
    simp only [alookup, List.map_cons, List.mem_cons]
    split
    · rename_i h
      simp [h.symm]
    · rename_i h
      have hne : ¬ k = p.1 := fun hkp => h hkp.symm
      simp [ih, hne]

/-- Attribute lookup succeeds for every name in the key list. -/
theorem alookup_mem_keys (a : List (String × Int)) (k : String)
    (h : k ∈ a.map Prod.fst) : ∃ v, alookup a k = some v := by
  cases hv : alookup a k with
  | none => exact absurd h ((alookup_eq_none_iff a k).1 hv)
  | some v => exact ⟨v, rfl⟩

/-- C10: for every `Statistics` instance — the constructed object after any
sequence of its method calls — `readOverallStatistics` raises an
`AttributeError` for `_processedFamesOverall`: the constructor assigns only
the differently spelled `_processedFamesOverlall` and no method ever assigns
the name the read uses, so the lifetime-counter read path can never
return. -/
theorem readOverallStatistics_always_raises (ops : List StatOp) :
    readOverallStatistics (applyStatOps ops) =
      Except.error attrProcessedFamesOverall := by
  have hk := keys_applyStatOps ops
  have hmem : ∀ k : String, k ∈ statisticsInitAttrs.map Prod.fst →
      ∃ v, alookup (applyStatOps ops) k = some v := by
    intro k h
    exact alookup_mem_keys _ _ (hk ▸ h)
  obtain ⟨v1, hv1⟩ := hmem attrWespenCountOverall (by decide)
  obtain ⟨v2, hv2⟩ := hmem attrVarroaCountOverall (by decide)
  obtain ⟨v3, hv3⟩ := hmem attrPollenCountOverall (by decide)
  obtain ⟨v4, hv4⟩ := hmem attrCoolingCountOverall (by decide)
  obtain ⟨v5, hv5⟩ := hmem attrBeesInOverall (by decide)
  obtain ⟨v6, hv6⟩ := hmem attrBeesOutOverall (by decide)
  have hnone : alookup (applyStatOps ops) attrProcessedFamesOverall = none := by
    refine (alookup_eq_none_iff _ _).2 ?_
    rw [hk]
    decide
  simp [readOverallStatistics, getattrInt, hv1, hv2, hv3, hv4, hv5, hv6, hnone]

/-- C2: counting on out-of-pane removal.  With counting enabled, a track
whose first position lies below the code's vertical midline
`int(frame_height / 2)` (larger y in image coordinates) and whose last trace
position lies above it gets exactly one bees-in increment and no bees-out
increment; the reverse transition gets exactly one bees-out increment and no
bees-in increment; and every removal increments at most one of the two
counters. -/
theorem delTrack_counting [LinearOrderedCommRing α] (frameH : Nat)
    (tracks : List (BeeTrack α κ)) (st : Statistics) (i : Nat)
    (track : BeeTrack α κ) (hget : tracks.get? i = some track) :
    (track.firstPosition.cy > ((frameH / 2 : Nat) : α) →
      (traceLast track).cy < ((frameH / 2 : Nat) : α) →
      (delTrack frameH tracks st i true).2.beesIn = st.beesIn + 1 ∧
      (delTrack frameH tracks st i true).2.beesOut = st.beesOut) ∧
    (track.firstPosition.cy < ((frameH / 2 : Nat) : α) →
      (traceLast track).cy > ((frameH / 2 : Nat) : α) →
      (delTrack frameH tracks st i true).2.beesOut = st.beesOut + 1 ∧
      (delTrack frameH tracks st i true).2.beesIn = st.beesIn) ∧
    (∀ c : Bool,
      ((delTrack frameH tracks st i c).2.beesIn - st.beesIn) +
        ((delTrack frameH tracks st i c).2.beesOut - st.beesOut) ≤ 1) := by
  refine ⟨?_, ?_, ?_⟩
  · intro h1 h2
    have hA : track.firstPosition.cy > ((frameH / 2 : Nat) : α) ∧
        (traceLast track).cy ≤ ((frameH / 2 : Nat) : α) := ⟨h1, h2.le⟩
    have hB : ¬(track.firstPosition.cy < ((frameH / 2 : Nat) : α) ∧
        (traceLast track).cy ≥ ((frameH / 2 : Nat) : α)) :=
      fun hx => absurd hx.1 (not_lt.2 h1.le)
    simp only [delTrack, hget, if_true]
    rw [if_neg hB, if_pos hA]
    simp [Statistics.addBeeIn]
  · intro h1 h2
    have hA : ¬(track.firstPosition.cy > ((frameH / 2 : Nat) : α) ∧
        (traceLast track).cy ≤ ((frameH / 2 : Nat) : α)) :=
      fun hx => absurd hx.1 (not_lt.2 h1.le)
    have hB : track.firstPosition.cy < ((frameH / 2 : Nat) : α) ∧
        (traceLast track).cy ≥ ((frameH / 2 : Nat) : α) := ⟨h1, h2.le⟩
    simp only [delTrack, hget, if_true]
    rw [if_neg hA, if_pos hB]
    simp [Statistics.addBeeOut]
  · intro c
    cases c with
    | false =>
      simp only [delTrack, hget, Bool.false_eq_true, if_false]
      omega
    | true =>
      by_cases hA : track.firstPosition.cy > ((frameH / 2 : Nat) : α) ∧
          (traceLast track).cy ≤ ((frameH / 2 : Nat) : α)
      · by_cases hB : track.firstPosition.cy < ((frameH / 2 : Nat) : α) ∧
            (traceLast track).cy ≥ ((frameH / 2 : Nat) : α)
        · exact absurd hB.1 (not_lt.2 hA.1.le)
        · simp only [delTrack, hget, if_true]
          rw [if_neg hB, if_pos hA]
          simp only [Statistics.addBeeIn]
          omega
      · by_cases hB : track.firstPosition.cy < ((frameH / 2 : Nat) : α) ∧
            (traceLast track).cy ≥ ((frameH / 2 : Nat) : α)
        · simp only [delTrack, hget, if_true]
          rw [if_pos hB, if_neg hA]
          simp only [Statistics.addBeeOut]
          omega
        · simp only [delTrack, hget, if_true]
          rw [if_neg hB, if_neg hA]
          omega

/-- C2 witness: a concrete removal over integer coordinates with frame
height 540, first position y = 300 below the midline 270 and last position
y = 10 above it, applied to the fresh statistics object. -/
theorem delTrack_counting_witness :
    (delTrack 540 [c2ExampleTrack] Statistics.init 0 true).2.beesIn =
      Statistics.init.beesIn + 1 ∧
    (delTrack 540 [c2ExampleTrack] Statistics.init 0 true).2.beesOut =
      Statistics.init.beesOut :=
  (delTrack_counting 540 [c2ExampleTrack] Statistics.init 0 c2ExampleTrack
      rfl).1
    (by norm_num [c2ExampleTrack]) (by norm_num [c2ExampleTrack, traceLast])

/-- C5: a classifier result whose track id matches no live track is not
dropped: each tag present in the result set still increments its
corresponding statistics window counter by one through the direct
`Statistics.addClassificationResult` call, and tags absent from the result
leave their counters unchanged. -/
theorem deadTrack_result_still_counted (tracks : List (BeeTrack α κ))
    (st : Statistics) (tid : Nat) (result : List Tag)
    (hdead : getTrackById tracks tid = none) (g : Tag) :
    Statistics.tagCount (handleClassifierResult tracks st tid result).2 g =
      Statistics.tagCount st g + (if g ∈ result then 1 else 0) := by
  simp only [handleClassifierResult, hdead]
  cases g <;>
    by_cases h1 : Tag.wespe ∈ result <;>
    by_cases h2 : Tag.varroa ∈ result <;>
    by_cases h3 : Tag.pollen ∈ result <;>
    by_cases h4 : Tag.cooling ∈ result <;>
    simp [Statistics.addClassificationResult, Statistics.addDetection,
      Statistics.tagCount, h1, h2, h3, h4]

/-- C5 witness: a varroa result for the already-retired track id 7, with no
live tracks, increments the varroa window counter of the fresh statistics
object. -/
theorem deadTrack_result_still_counted_witness :
    Statistics.tagCount
      ((handleClassifierResult ([] : List (BeeTrack Int Unit))
        Statistics.init 7 [Tag.varroa]).2) Tag.varroa =
      Statistics.tagCount Statistics.init Tag.varroa + 1 := by
  have h := deadTrack_result_still_counted ([] : List (BeeTrack Int Unit))
    Statistics.init 7 [Tag.varroa] rfl Tag.varroa
  simpa using h

/-- Every value below 16 is recovered from its uppercase hex digit. -/
theorem hexVal_hexDigitChar : ∀ n < 16, hexVal (hexDigitChar n) = n := by
  decide

/-- Both bytes produced by `packInt16` are below 256. -/
theorem packInt16_lt (x : Int) : ∀ b ∈ packInt16 x, b < 256 := by
  intro b hb
  have hx : toUInt16mod x < 65536 := by
    unfold toUInt16mod
    omega
  simp only [packInt16, List.mem_cons, List.not_mem_nil, or_false] at hb
  rcases hb with h | h <;> subst h <;> omega

/-- Decoding the two hex characters of a byte below 256 recovers the byte
and leaves the remaining characters to be decoded. -/
theorem hexDecode_byteHexChars (b : Nat) (hb : b < 256) (rest : List Char) :
    hexDecodeChars (byteHexChars b ++ rest) = b :: hexDecodeChars rest := by
  have h1 : b / 16 < 16 := by omega
  have h2 : b % 16 < 16 := by omega
  simp only [byteHexChars, List.cons_append, List.nil_append, hexDecodeChars]
  rw [hexVal_hexDigitChar _ h1, hexVal_hexDigitChar _ h2]
  congr 1
  omega

/-- Hex-decoding the hex-encoding of a byte list recovers the bytes. -/
theorem hexDecodeChars_flatten (bs : List Nat) (h : ∀ b ∈ bs, b < 256) :
    hexDecodeChars (bs.map byteHexChars).flatten = bs := by
  induction bs with
  | nil => rfl
  | cons b rest ih =>
    simp only [List.map_cons, List.flatten_cons]
    rw [hexDecode_byteHexChars b (h b (by simp)) _,
      ih (fun x hx => h x (by simp [hx]))]

/-- The hex encoding writes exactly two characters per byte. -/
theorem hexEncodeBytes_length (bs : List Nat) :
    (hexEncodeBytes bs).length = 2 * bs.length := by
  show ((bs.map byteHexChars).flatten).length = 2 * bs.length
  induction bs with
  | nil => rfl
  | cons b rest ih =>
    simp only [List.map_cons, List.flatten_cons, List.length_append,
      List.length_cons, ih, byteHexChars, List.length_nil]
    omega

/-- The two bytes of a packed int16 in the signed 16-bit range unpack to the
original value. -/
theorem unpackInt16_packInt16 (x : Int) (h1 : -32768 ≤ x) (h2 : x ≤ 32767) :
    unpackInt16 (toUInt16mod x % 256) (toUInt16mod x / 256) = x := by
  simp only [unpackInt16, toUInt16mod]
  split_ifs <;> omega

/-- C7: for six integers in the signed 16-bit range, packing them as six
int16 values and hex-encoding each byte as two uppercase hex digits gives a
24-character string whose hex decoding returns exactly the packed bytes, and
unpacking those bytes returns exactly the six original counters. -/
theorem radio_payload_roundtrip (a b c d e f : Int)
    (ha : -32768 ≤ a ∧ a ≤ 32767) (hb : -32768 ≤ b ∧ b ≤ 32767)
    (hc : -32768 ≤ c ∧ c ≤ 32767) (hd : -32768 ≤ d ∧ d ≤ 32767)
    (he : -32768 ≤ e ∧ e ≤ 32767) (hf : -32768 ≤ f ∧ f ≤ 32767) :
    (hexEncodeBytes (packSix a b c d e f)).length = 24 ∧
    hexDecode (hexEncodeBytes (packSix a b c d e f)) = packSix a b c d e f ∧
    unpackSix (packSix a b c d e f) = [a, b, c, d, e, f] := by
  have hlt : ∀ x ∈ packSix a b c d e f, x < 256 := by
    intro x hx
    simp only [packSix, List.mem_append] at hx
    rcases hx with ((((h | h) | h) | h) | h) | h <;> exact packInt16_lt _ _ h
  refine ⟨?_, ?_, ?_⟩
  · rw [hexEncodeBytes_length]
    simp [packSix, packInt16]
  · exact hexDecodeChars_flatten _ hlt
  · show unpackSix
      (toUInt16mod a % 256 :: toUInt16mod a / 256 ::
       toUInt16mod b % 256 :: toUInt16mod b / 256 ::
       toUInt16mod c % 256 :: toUInt16mod c / 256 ::
       toUInt16mod d % 256 :: toUInt16mod d / 256 ::
       toUInt16mod e % 256 :: toUInt16mod e / 256 ::
       toUInt16mod f % 256 :: toUInt16mod f / 256 :: []) = _
    simp only [unpackSix]
    rw [unpackInt16_packInt16 a ha.1 ha.2, unpackInt16_packInt16 b hb.1 hb.2,
      unpackInt16_packInt16 c hc.1 hc.2, unpackInt16_packInt16 d hd.1 hd.2,
      unpackInt16_packInt16 e he.1 he.2, unpackInt16_packInt16 f hf.1 hf.2]

/-- C7 witness: the spec's example counters `[3, 1, 0, 2, 5, 4]` survive the
pack/hex round trip. -/
theorem radio_payload_roundtrip_witness :
    hexDecode (hexEncodeBytes (packSix 3 1 0 2 5 4)) = packSix 3 1 0 2 5 4 ∧
    unpackSix (packSix 3 1 0 2 5 4) = [3, 1, 0, 2, 5, 4] :=
  ⟨(radio_payload_roundtrip 3 1 0 2 5 4 (by norm_num) (by norm_num)
      (by norm_num) (by norm_num) (by norm_num) (by norm_num)).2.1,
   (radio_payload_roundtrip 3 1 0 2 5 4 (by norm_num) (by norm_num)
      (by norm_num) (by norm_num) (by norm_num) (by norm_num)).2.2⟩

/-- Membership after Python set insertion. -/
theorem mem_insertTag (l : List Tag) (g x : Tag) :
    x ∈ insertTag l g ↔ x = g ∨ x ∈ l := by
  unfold insertTag
  split
  · rename_i hg
    constructor
    · exact Or.inr
    · rintro (rfl | hx)
      · exact hg
      · exact hx
  · simp [List.mem_append, or_comm]

/-- `addDetection` increments exactly the window counter of its tag. -/
theorem tagCount_addDetection (s : Statistics) (g x : Tag) :
    (s.addDetection g).tagCount x =
      s.tagCount x + (if x = g then 1 else 0) := by
  cases g <;> cases x <;>
    simp [Statistics.addDetection, Statistics.tagCount]

/-- One `addTag` call preserves the debounce invariant: pending counts track
the observation counts, a tag is confirmed and reported exactly when its
count has reached its threshold, and the statistics counter of each tag
equals its initial value plus one exactly when the tag is confirmed. -/
theorem addTag_inv_step (t : BeeTrack α κ) (st st0 : Statistics) (g : Tag)
    (f : Tag → Nat) (hcnt : ∀ x, t.tagCnts x = f x)
    (htags : ∀ x, x ∈ t.tags ↔ tagThreshold x ≤ f x)
    (hrep : ∀ x, x ∈ t.reportedTags ↔ tagThreshold x ≤ f x)
    (hstat : ∀ x, st.tagCount x =
      st0.tagCount x + (if tagThreshold x ≤ f x then 1 else 0)) :
    (∀ x, (BeeTrack.addTag t st g).1.tagCnts x =
        (if x = g then f x + 1 else f x)) ∧
    (∀ x, x ∈ (BeeTrack.addTag t st g).1.tags ↔
        tagThreshold x ≤ (if x = g then f x + 1 else f x)) ∧
    (∀ x, x ∈ (BeeTrack.addTag t st g).1.reportedTags ↔
        tagThreshold x ≤ (if x = g then f x + 1 else f x)) ∧
    (∀ x, (BeeTrack.addTag t st g).2.tagCount x = st0.tagCount x +
        (if tagThreshold x ≤ (if x = g then f x + 1 else f x) then 1
          else 0)) := by
  simp only [BeeTrack.addTag, hcnt, if_true]
  by_cases hgmem : g ∈ t.reportedTags
  · simp only [hgmem, not_true, if_false]
    split_ifs with hbr
    · obtain ⟨hgc, h5⟩ := hbr
      subst hgc
      refine ⟨fun x => rfl, ?_, ?_, ?_⟩
      · intro x
        dsimp only
        rw [htags x]
        by_cases hx : x = Tag.cooling
        · subst hx
          simp only [if_pos rfl, tagThreshold, if_true]
          omega
        · simp [hx]
      · intro x
        dsimp only
        rw [hrep x]
        by_cases hx : x = Tag.cooling
        · subst hx
          simp only [if_pos rfl, tagThreshold, if_true]
          omega
        · simp [hx]
      · intro x
        dsimp only
        rw [hstat x]
        by_cases hx : x = Tag.cooling
        · subst hx
          simp only [if_pos rfl, tagThreshold, if_true]
          congr 1
          split_ifs <;> omega
        · simp [hx]
    · have hthr : tagThreshold g ≤ f g + 1 := by
        by_cases hc : g = Tag.cooling
        · have h5 : ¬ f g + 1 < 5 := fun h => hbr ⟨hc, h⟩
          simp only [tagThreshold, if_pos hc]
          omega
        · simp only [tagThreshold, if_neg hc]
          omega
      refine ⟨fun x => rfl, ?_, ?_, ?_⟩
      · intro x
        dsimp only
        rw [mem_insertTag]
        by_cases hx : x = g
        · subst hx
          simp [hthr]
        · simp [hx, htags x]
      · intro x
        dsimp only
        rw [mem_insertTag]
        by_cases hx : x = g
        · subst hx
          simp [hthr]
        · simp [hx, hrep x]
      · intro x
        dsimp only
        rw [hstat x]
        by_cases hx : x = g
        · subst hx
          have hle : tagThreshold x ≤ f x := (hrep x).1 hgmem
          simp only [if_pos rfl]
          congr 1
          split_ifs <;> omega
        · simp [hx]
  · simp only [hgmem, not_false_iff, if_true]
    split_ifs with hbr
    · obtain ⟨hgc, h5⟩ := hbr
      subst hgc
      refine ⟨fun x => rfl, ?_, ?_, ?_⟩
      · intro x
        dsimp only
        rw [htags x]
        by_cases hx : x = Tag.cooling
        · subst hx
          simp only [if_pos rfl, tagThreshold, if_true]
          omega
        · simp [hx]
      · intro x
        dsimp only
        rw [hrep x]
        by_cases hx : x = Tag.cooling
        · subst hx
          simp only [if_pos rfl, tagThreshold, if_true]
          omega
        · simp [hx]
      · intro x
        dsimp only
        rw [hstat x]
        by_cases hx : x = Tag.cooling
        · subst hx
          simp only [if_pos rfl, tagThreshold, if_true]
          congr 1
          split_ifs <;> omega
        · simp [hx]
    · have hthr : tagThreshold g ≤ f g + 1 := by
        by_cases hc : g = Tag.cooling
        · have h5 : ¬ f g + 1 < 5 := fun h => hbr ⟨hc, h⟩
          simp only [tagThreshold, if_pos hc]
          omega
        · simp only [tagThreshold, if_neg hc]
          omega
      refine ⟨fun x => rfl, ?_, ?_, ?_⟩
      · intro x
        dsimp only
        rw [mem_insertTag]
        by_cases hx : x = g
        · subst hx
          simp [hthr]
        · simp [hx, htags x]
      · intro x
        dsimp only
        rw [mem_insertTag]
        by_cases hx : x = g
        · subst hx
          simp [hthr]
        · simp [hx, hrep x]
      · intro x
        dsimp only
        simp only [Statistics.addClassificationResultByTag]
        rw [tagCount_addDetection, hstat x]
        by_cases hx : x = g
        · subst hx
          have hnle : ¬ tagThreshold x ≤ f x := fun h => hgmem ((hrep x).2 h)
          have hthr2 : tagThreshold x ≤ (if x = x then f x + 1 else f x) := by
            simpa using hthr
          rw [if_pos rfl, if_neg hnle, if_pos hthr2]
          omega
        · simp [hx]

/-- Folding a whole observation sequence preserves the debounce invariant,
with each tag's count increased by its number of occurrences in the
sequence. -/
theorem runTags_inv (s : List Tag) :
    ∀ (t : BeeTrack α κ) (st st0 : Statistics) (f : Tag → Nat),
    (∀ x, t.tagCnts x = f x) →
    (∀ x, x ∈ t.tags ↔ tagThreshold x ≤ f x) →
    (∀ x, x ∈ t.reportedTags ↔ tagThreshold x ≤ f x) →
    (∀ x, st.tagCount x =
      st0.tagCount x + (if tagThreshold x ≤ f x then 1 else 0)) →
    (∀ x, (runTags t st s).1.tagCnts x = f x + s.count x) ∧
    (∀ x, x ∈ (runTags t st s).1.tags ↔ tagThreshold x ≤ f x + s.count x) ∧
    (∀ x, x ∈ (runTags t st s).1.reportedTags ↔
        tagThreshold x ≤ f x + s.count x) ∧
    (∀ x, (runTags t st s).2.tagCount x = st0.tagCount x +
        (if tagThreshold x ≤ f x + s.count x then 1 else 0)) := by
  induction s with
  | nil =>
    intro t st st0 f h1 h2 h3 h4
    simpa [runTags] using ⟨h1, h2, h3, h4⟩
  | cons g rest ih =>
    intro t st st0 f h1 h2 h3 h4
    have step := addTag_inv_step t st st0 g f h1 h2 h3 h4
    have tail := ih (BeeTrack.addTag t st g).1 (BeeTrack.addTag t st g).2 st0
      (fun x => if x = g then f x + 1 else f x)
      step.1 step.2.1 step.2.2.1 step.2.2.2
    have hrun : runTags t st (g :: rest) =
        runTags (BeeTrack.addTag t st g).1 (BeeTrack.addTag t st g).2 rest := by
      simp [runTags]
    have harith : ∀ x : Tag,
        (if x = g then f x + 1 else f x) + rest.count x =
          f x + (g :: rest).count x := by
      intro x
      by_cases hx : x = g <;> simp [hx, List.count_cons] <;> omega
    rw [hrun]
    refine ⟨?_, ?_, ?_, ?_⟩ <;> intro x
    · rw [tail.1 x, harith x]
    · rw [tail.2.1 x, harith x]
    · rw [tail.2.2.1 x, harith x]
    · rw [tail.2.2.2 x, harith x]

/-- C4: starting from a track with no pending, confirmed or reported tags,
and for any interleaved sequence of `addTag` observations: the cooling tag
is in the confirmed tag set exactly when at least 5 cooling observations
have occurred (never before the 5th, from the 5th on), the cooling
statistics counter is incremented exactly once over the whole sequence and
only when confirmation happened, and every other tag kind is confirmed from
its first observation on, with its counter likewise incremented exactly
once. -/
theorem cooling_tag_debounce (t0 : BeeTrack α κ) (st0 : Statistics)
    (h1 : ∀ x, t0.tagCnts x = 0) (h2 : t0.tags = [])
    (h3 : t0.reportedTags = []) (s : List Tag) :
    (Tag.cooling ∈ (runTags t0 st0 s).1.tags ↔ 5 ≤ s.count Tag.cooling) ∧
    ((runTags t0 st0 s).2.tagCount Tag.cooling =
      st0.tagCount Tag.cooling +
        (if 5 ≤ s.count Tag.cooling then 1 else 0)) ∧
    (∀ g, g ≠ Tag.cooling →
      ((g ∈ (runTags t0 st0 s).1.tags ↔ 1 ≤ s.count g) ∧
       (runTags t0 st0 s).2.tagCount g =
         st0.tagCount g + (if 1 ≤ s.count g then 1 else 0))) := by
  have hthr : ∀ x : Tag, 1 ≤ tagThreshold x := by
    intro x
    simp only [tagThreshold]
    split <;> omega
  have inv := runTags_inv s t0 st0 st0 (fun _ => 0) h1
    (by intro x
        show x ∈ t0.tags ↔ tagThreshold x ≤ 0
        rw [h2]
        simp only [List.not_mem_nil, false_iff]
        have h := hthr x
        omega)
    (by intro x
        show x ∈ t0.reportedTags ↔ tagThreshold x ≤ 0
        rw [h3]
        simp only [List.not_mem_nil, false_iff]
        have h := hthr x
        omega)
    (by intro x
        show st0.tagCount x =
          st0.tagCount x + (if tagThreshold x ≤ 0 then 1 else 0)
        have h := hthr x
        rw [if_neg (by omega)]
        omega)
  refine ⟨?_, ?_, ?_⟩
  · have := inv.2.1 Tag.cooling
    simpa [tagThreshold] using this
  · have := inv.2.2.2 Tag.cooling
    simpa [tagThreshold] using this
  · intro g hg
    constructor
    · have := inv.2.1 g
      simpa [tagThreshold, hg] using this
    · have := inv.2.2.2 g
      simpa [tagThreshold, hg] using this

/-- C4 witness: on a fresh track, five cooling observations confirm the
cooling tag while four do not. -/
theorem cooling_tag_debounce_witness :
    (Tag.cooling ∈ (runTags c2ExampleTrack Statistics.init
      [Tag.cooling, Tag.cooling, Tag.cooling, Tag.cooling,
        Tag.cooling]).1.tags) ∧
    ¬ (Tag.cooling ∈ (runTags c2ExampleTrack Statistics.init
      [Tag.cooling, Tag.cooling, Tag.cooling, Tag.cooling]).1.tags) := by
  constructor
  · exact (cooling_tag_debounce c2ExampleTrack Statistics.init
      (fun x => rfl) rfl rfl _).1.2 (by decide)
  · intro h
    have := (cooling_tag_debounce c2ExampleTrack Statistics.init
      (fun x => rfl) rfl rfl
      [Tag.cooling, Tag.cooling, Tag.cooling, Tag.cooling]).1.1 h
    revert this
    decide

/-- The per-item validation accepts exactly the lists whose items all have
integer heights and widths and a valid color mode, independently of the
running maxima. -/
theorem validateItems_ok_iff (l : List FrameCfgItem) :
    ∀ mW mH : Rat, validateItems mW mH l = Except.ok () ↔
      ∀ item ∈ l, item.height.isInt ∧ item.width.isInt ∧
        (item.colorMode = IMREAD_COLOR ∨ item.colorMode = IMREAD_GRAYSCALE ∨
          item.colorMode = IMREAD_UNCHANGED) := by
  induction l with
  | nil =>
    intro mW mH
    simp [validateItems]
  | cons item rest ih =>
    intro mW mH
    by_cases h1 : item.height.isInt
    · by_cases h2 : item.width.isInt
      · by_cases h3 : item.colorMode = IMREAD_COLOR ∨
            item.colorMode = IMREAD_GRAYSCALE ∨
            item.colorMode = IMREAD_UNCHANGED
        · have hnot : ¬(¬item.colorMode = IMREAD_COLOR ∧
              ¬item.colorMode = IMREAD_GRAYSCALE ∧
              ¬item.colorMode = IMREAD_UNCHANGED) := by tauto
          simp [validateItems, h1, h2, hnot, ih, List.forall_mem_cons, h3]
        · have hyes : ¬item.colorMode = IMREAD_COLOR ∧
              ¬item.colorMode = IMREAD_GRAYSCALE ∧
              ¬item.colorMode = IMREAD_UNCHANGED := by tauto
          simp [validateItems, h1, h2, hyes, List.forall_mem_cons,
            hyes.1, hyes.2.1, hyes.2.2]
      · have h2f : item.width.isInt = false := by simpa using h2
        simp [validateItems, h1, h2f, List.forall_mem_cons]
    · have h1f : item.height.isInt = false := by simpa using h1
      simp [validateItems, h1f, List.forall_mem_cons]

/-- C9 amended claim: the startup validation rejects exactly the empty
configuration list, any item whose height or width is not an `int`, and any
color mode outside the three constants; it performs no monotonicity and no
positivity check. -/
theorem validateFrameConfig_ok_iff (cfg : List FrameCfgItem) :
    validateFrameConfig cfg = Except.ok () ↔
      (cfg ≠ [] ∧ ∀ item ∈ cfg, item.height.isInt ∧ item.width.isInt ∧
        (item.colorMode = IMREAD_COLOR ∨ item.colorMode = IMREAD_GRAYSCALE ∨
          item.colorMode = IMREAD_UNCHANGED)) := by
  unfold validateFrameConfig
  rcases cfg with _ | ⟨item, rest⟩
  · simp
  · rw [if_neg (by simp)]
    rw [validateItems_ok_iff]
    simp

/-- C9 counterexample: the validation accepts a configuration whose
resolutions strictly increase, and one with a negative height, although the
claim says every configuration that is not strictly decreasing or contains a
non-positive dimension is rejected at startup. -/
theorem validateFrameConfig_accepts_invalid :
    validateFrameConfig
        [⟨PyNum.int 1, PyNum.int 1, IMREAD_COLOR⟩,
         ⟨PyNum.int 2, PyNum.int 2, IMREAD_COLOR⟩] = Except.ok () ∧
    ¬ spec_frameConfigOk
        [⟨PyNum.int 1, PyNum.int 1, IMREAD_COLOR⟩,
         ⟨PyNum.int 2, PyNum.int 2, IMREAD_COLOR⟩] ∧
    validateFrameConfig [⟨PyNum.int (-5), PyNum.int 10, IMREAD_COLOR⟩] =
      Except.ok () ∧
    ¬ spec_frameConfigOk [⟨PyNum.int (-5), PyNum.int 10, IMREAD_COLOR⟩] := by
  refine ⟨rfl, ?_, rfl, ?_⟩
  · rintro ⟨hchain, -⟩
    have h := (List.chain'_cons.1 hchain).1.1
    norm_num [PyNum.val] at h
  · rintro ⟨-, hall⟩
    have h := (hall ⟨PyNum.int (-5), PyNum.int 10, IMREAD_COLOR⟩
      (by simp)).2.2.1
    norm_num [PyNum.val] at h

/-- Squared center distance is symmetric. -/
theorem sqCdist_comm [CommRing α] (a b : Ellipse α) :
    sqCdist a b = sqCdist b a := by
  simp only [sqCdist]
  ring

/-- C8 counterexample: with the middle ellipse at squared distance 49^2 from
two flanking ellipses that are 98 apart (squared distance 9604, beyond the
merge radius 50), the merge pass groups all three through the middle one and
keeps only the largest, so the flank at x = -49 is discarded in favor of the
flank at x = 49 although their distance is at least 50 — refuting the claim
that such a pair is never grouped and neither is discarded for the other. -/
theorem mergePass_transitive_overmerge :
    mergePass [(⟨0, 0, 5, 5, 0⟩ : Ellipse Int), ⟨-49, 0, 10, 10, 0⟩,
        ⟨49, 0, 20, 20, 0⟩] = [⟨49, 0, 20, 20, 0⟩] ∧
    ¬ sqCdist (⟨-49, 0, 10, 10, 0⟩ : Ellipse Int) ⟨49, 0, 20, 20, 0⟩ <
        50 * 50 := by
  decide

/-- The first-maximum fold of `max(group, key=area)` returns a member of the
group of maximal area key. -/
theorem maxByAreaAux_spec [LinearOrderedCommRing α]
    (t : List (Ellipse α)) : ∀ best : Ellipse α,
    maxByAreaAux best t ∈ best :: t ∧
      ∀ y ∈ best :: t, areaKey y ≤ areaKey (maxByAreaAux best t) := by
  induction t with
  | nil =>
    intro best
    refine ⟨by simp [maxByAreaAux], ?_⟩
    intro y hy
    simp only [List.mem_singleton] at hy
    subst hy
    exact le_refl _
  | cons x rest ih =>
    intro best
    have hstep : maxByAreaAux best (x :: rest) =
        maxByAreaAux (if areaKey best < areaKey x then x else best) rest := rfl
    rw [hstep]
    by_cases hbx : areaKey best < areaKey x
    · rw [if_pos hbx]
      obtain ⟨hmem, hbound⟩ := ih x
      refine ⟨?_, ?_⟩
      · rcases List.mem_cons.1 hmem with h | h
        · simp [h]
        · simp [List.mem_cons, Or.inr (Or.inr h)]
      · intro y hy
        rcases List.mem_cons.1 hy with rfl | hy2
        · exact le_trans hbx.le (hbound x (by simp))
        · rcases List.mem_cons.1 hy2 with rfl | hy3
          · exact hbound y (by simp)
          · exact hbound y (by simp [hy3])
    · rw [if_neg hbx]
      obtain ⟨hmem, hbound⟩ := ih best
      refine ⟨?_, ?_⟩
      · rcases List.mem_cons.1 hmem with h | h
        · simp [h]
        · simp [List.mem_cons, Or.inr (Or.inr h)]
      · intro y hy
        rcases List.mem_cons.1 hy with rfl | hy2
        · exact hbound y (by simp)
        · rcases List.mem_cons.1 hy2 with rfl | hy3
          · exact le_trans (not_lt.1 hbx) (hbound best (by simp))
          · exact hbound y (by simp [hy3])

/-- When a given ellipse is beyond the merge radius from every other element
of the scan list, the inner merge loop only records processed pairs: skip
and group are unchanged. -/
theorem mergeInner_far [LinearOrderedCommRing α] (a : Ellipse α)
    (bs : List (Ellipse α))
    (hfar : ∀ b ∈ bs, a ≠ b → ¬ sqCdist a b < 50 * 50) :
    ∀ (done : List (Ellipse α × Ellipse α)) (skip group : List (Ellipse α)),
      ∃ done2, bs.foldl (mergeInner a) (done, skip, group) =
        (done2, skip, group) := by
  induction bs with
  | nil =>
    intro done skip group
    exact ⟨done, rfl⟩
  | cons b rest ih =>
    intro done skip group
    have hfar2 : ∀ x ∈ rest, a ≠ x → ¬ sqCdist a x < 50 * 50 :=
      fun x hx => hfar x (by simp [hx])
    have hstep : mergeInner a (done, skip, group) b =
        if (a, b) ∈ done ∨ (b, a) ∈ done ∨ a = b then (done, skip, group)
        else (done ++ [(a, b)], skip, group) := by
      by_cases h1 : (a, b) ∈ done ∨ (b, a) ∈ done ∨ a = b
      · simp only [mergeInner, if_pos h1]
      · have h2 : ¬ sqCdist a b < 50 * 50 :=
          hfar b (by simp) (fun hab => h1 (Or.inr (Or.inr hab)))
        simp only [mergeInner, if_neg h1, if_neg h2]
    simp only [List.foldl_cons]
    rw [hstep]
    by_cases hd : (a, b) ∈ done ∨ (b, a) ∈ done ∨ a = b
    · rw [if_pos hd]
      exact ih hfar2 done skip group
    · rw [if_neg hd]
      exact ih hfar2 (done ++ [(a, b)]) skip group

/-- C8 part 1 support: when every pair of distinct input ellipses is beyond
the merge radius, the merge pass returns the input unchanged. -/
theorem mergePass_far [LinearOrderedCommRing α] (es : List (Ellipse α))
    (hfar : ∀ a ∈ es, ∀ b ∈ es, a ≠ b → ¬ sqCdist a b < 50 * 50) :
    mergePass es = es := by
  have houter : ∀ as : List (Ellipse α), (∀ a ∈ as, a ∈ es) →
      ∀ done : List (Ellipse α × Ellipse α),
      ∃ done2, as.foldl (mergeOuter es) (done, [], ([] : List (Ellipse α))) =
        (done2, [], []) := by
    intro as
    induction as with
    | nil =>
      intro _ done
      exact ⟨done, rfl⟩
    | cons a rest ih =>
      intro has done
      obtain ⟨d2, hd2⟩ := mergeInner_far a es
        (fun b hb hab => hfar a (has a (by simp)) b hb hab) done [] []
      have houtstep : mergeOuter es (done, [], ([] : List (Ellipse α))) a =
          (d2, [], []) := by
        simp only [mergeOuter, hd2]
      simp only [List.foldl_cons]
      rw [houtstep]
      exact ih (fun x hx => has x (by simp [hx])) d2
  obtain ⟨d2, hd⟩ := houter es (fun a ha => ha) []
  unfold mergePass
  rw [hd]
  simp

/-- Membership is not gained by the conditional append the merge pass uses
for its `skip` and `group` lists. -/
theorem not_mem_condAppend [LinearOrderedCommRing α]
    (l : List (Ellipse α)) (x e : Ellipse α) (hne : e ≠ x) (h : e ∉ l) :
    e ∉ (if x ∈ l then l else l ++ [x]) := by
  split_ifs
  · exact h
  · simp [List.mem_append, h, hne]

/-- One inner-loop step never adds an isolated ellipse to the skip list. -/
theorem mergeInner_step_skip [LinearOrderedCommRing α]
    (e a b : Ellipse α) (es : List (Ellipse α)) (ha : a ∈ es) (hb : b ∈ es)
    (hfar : ∀ x ∈ es, x ≠ e → ¬ sqCdist e x < 50 * 50)
    (done : List (Ellipse α × Ellipse α)) (skip group : List (Ellipse α))
    (hnot : e ∉ skip) :
    e ∉ (mergeInner a (done, skip, group) b).2.1 := by
  by_cases h1 : (a, b) ∈ done ∨ (b, a) ∈ done ∨ a = b
  · simp only [mergeInner, if_pos h1]
    exact hnot
  · by_cases h2 : sqCdist a b < 50 * 50
    · have hab : a ≠ b := fun h => h1 (Or.inr (Or.inr h))
      have hea : e ≠ a := by
        rintro rfl
        exact hfar b hb (fun h => hab h.symm) h2
      have heb : e ≠ b := by
        rintro rfl
        rw [sqCdist_comm] at h2
        exact hfar a ha hab h2
      simp only [mergeInner, if_neg h1, if_pos h2]
      exact not_mem_condAppend _ b e heb (not_mem_condAppend _ a e hea hnot)
    · simp only [mergeInner, if_neg h1, if_neg h2]
      exact hnot

/-- The whole inner loop never adds an isolated ellipse to the skip list. -/
theorem mergeInner_fold_skip [LinearOrderedCommRing α]
    (e a : Ellipse α) (es : List (Ellipse α)) (ha : a ∈ es)
    (hfar : ∀ x ∈ es, x ≠ e → ¬ sqCdist e x < 50 * 50) :
    ∀ bs : List (Ellipse α), (∀ b ∈ bs, b ∈ es) →
    ∀ (done : List (Ellipse α × Ellipse α)) (skip group : List (Ellipse α)),
      e ∉ skip → e ∉ (bs.foldl (mergeInner a) (done, skip, group)).2.1 := by
  intro bs
  induction bs with
  | nil =>
    intro _ done skip group h
    exact h
  | cons b rest ih =>
    intro hbs done skip group hnot
    simp only [List.foldl_cons]
    have hstep := mergeInner_step_skip e a b es ha (hbs b (by simp)) hfar
      done skip group hnot
    rcases hres : mergeInner a (done, skip, group) b with ⟨d2, s2, g2⟩
    rw [hres] at hstep
    exact ih (fun x hx => hbs x (by simp [hx])) d2 s2 g2 (by simpa using hstep)

/-- The outer merge loop never adds an isolated ellipse to the skip list. -/
theorem mergeOuter_skip_avoid [LinearOrderedCommRing α]
    (e : Ellipse α) (es : List (Ellipse α))
    (hfar : ∀ x ∈ es, x ≠ e → ¬ sqCdist e x < 50 * 50) :
    ∀ as : List (Ellipse α), (∀ a ∈ as, a ∈ es) →
    ∀ s : List (Ellipse α × Ellipse α) × List (Ellipse α) × List (Ellipse α),
      e ∉ s.2.1 → e ∉ (as.foldl (mergeOuter es) s).2.1 := by
  intro as
  induction as with
  | nil =>
    intro _ s h
    exact h
  | cons a rest ih =>
    intro has s hs
    simp only [List.foldl_cons]
    apply ih (fun x hx => has x (by simp [hx]))
    have hr : e ∉ (es.foldl (mergeInner a) (s.1, s.2.1, [])).2.1 :=
      mergeInner_fold_skip e a es (has a (by simp)) hfar es (fun b hb => hb)
        s.1 s.2.1 [] hs
    simp only [mergeOuter]
    split <;> exact hr

/-- C8 part 2 support: an ellipse beyond the merge radius from every other
input ellipse survives the merge pass. -/
theorem mergePass_isolated_survives [LinearOrderedCommRing α]
    (es : List (Ellipse α)) (e : Ellipse α) (he : e ∈ es)
    (hfar : ∀ b ∈ es, b ≠ e → ¬ sqCdist e b < 50 * 50) :
    e ∈ mergePass es := by
  unfold mergePass
  have hskip : e ∉ (es.foldl (mergeOuter es) ([], [], [])).2.1 :=
    mergeOuter_skip_avoid e es hfar es (fun a ha => ha) ([], [], [])
      (by simp)
  apply List.mem_append_left
  rw [List.mem_filter]
  exact ⟨he, decide_eq_true hskip⟩

/-- C8 amended claim: two input ellipses beyond the merge radius can be
grouped transitively through a third ellipse within the radius of each (see
the counterexample), so the original claim holds only in weakened form:
(1) when every pair of distinct input ellipses is beyond the merge radius
the merge pass returns its input unchanged, so no such pair is ever grouped
or discarded; (2) an ellipse beyond the radius from every other input
ellipse survives in the output; (3) the representative the pass keeps for a
nonempty group is a member of that group with maximal area. -/
theorem mergePass_amended [LinearOrderedCommRing α] :
    (∀ es : List (Ellipse α),
      (∀ a ∈ es, ∀ b ∈ es, a ≠ b → ¬ sqCdist a b < 50 * 50) →
        mergePass es = es) ∧
    (∀ (es : List (Ellipse α)) (e : Ellipse α), e ∈ es →
      (∀ b ∈ es, b ≠ e → ¬ sqCdist e b < 50 * 50) → e ∈ mergePass es) ∧
    (∀ (h : Ellipse α) (t : List (Ellipse α)),
      maxByAreaAux h t ∈ h :: t ∧
        ∀ y ∈ h :: t, areaKey y ≤ areaKey (maxByAreaAux h t)) :=
  ⟨fun es h => mergePass_far es h,
   fun es e he hf => mergePass_isolated_survives es e he hf,
   fun h t => maxByAreaAux_spec t h⟩

/-- C8 witness: two integer ellipses 100 apart pass through the merge pass
unchanged, and the first-maximum fold picks a group member. -/
theorem mergePass_amended_witness :
    mergePass [(⟨0, 0, 4, 4, 0⟩ : Ellipse Int), ⟨100, 0, 6, 6, 0⟩] =
      [⟨0, 0, 4, 4, 0⟩, ⟨100, 0, 6, 6, 0⟩] ∧
    maxByAreaAux (⟨0, 0, 4, 4, 0⟩ : Ellipse Int) [⟨100, 0, 6, 6, 0⟩] ∈
      [(⟨0, 0, 4, 4, 0⟩ : Ellipse Int), ⟨100, 0, 6, 6, 0⟩] :=
  ⟨mergePass_amended.1 [⟨0, 0, 4, 4, 0⟩, ⟨100, 0, 6, 6, 0⟩] (by decide),
   (mergePass_amended.2.2 ⟨0, 0, 4, 4, 0⟩ [⟨100, 0, 6, 6, 0⟩]).1⟩
